import Mathlib

/-
Verification of the DOGE DCA-grid strategy engine against its design
specification.  The three Python variants (historical backtest, live
Bybit worker, live flip-on-TP worker) are shallowly embedded over ℚ:
floats become exact rationals, `None` becomes `Option.none`, and the
per-sample evaluation of each engine becomes a pure state-transition
function.  External venue effects (order placement, logging, TP order
ids, cooldown clocks) are invisible to the claims and are dropped;
reported fills are modelled exactly as the Python code models them
(the code adds the rounded requested quantity to `pos_qty`).
-/

/-- The floating tolerance `1e-9` used by all three variants, both as the
position-cap slack and as the quantity floor in the win-only TP formula. -/
def eps : ℚ := 1 / 1000000000

/- ===================== backtest engine =====================
   Embedding of `backtest_dca_grid` (src/doge_dca_grid_backtest.py,
   lines 42-101): the loop-carried state and the body of the per-bar
   loop.  The equity-curve/drawdown bookkeeping (lines 60-65) touches
   no claim and is omitted; `equity` and the trade log are kept. -/

structure BtParams where
  base_order_usdt : ℚ
  safety_orders : ℤ
  step_pct : ℚ
  volume_scale : ℚ
  tp_pct : ℚ
  max_position_usdt : ℚ
  deriving DecidableEq

/-- One closed-trade record (backtest line 82; timestamps dropped). -/
structure BtTrade where
  pnl : ℚ
  levels : ℤ
  trade_avg_entry : ℚ
  exit_price : ℚ
  deriving DecidableEq

structure BtState where
  equity : ℚ
  pos_qty : ℚ
  avg_entry : Option ℚ
  level : ℤ
  next_buy_price : Option ℚ
  last_fill_price : Option ℚ
  size_usdt : ℚ
  trades : List BtTrade
  deriving DecidableEq

/-- Initial loop state of the backtest (lines 42-49). -/
def btInit (P : BtParams) (start_equity : ℚ) : BtState :=
  { equity := start_equity, pos_qty := 0, avg_entry := none, level := -1
  , next_buy_price := none, last_fill_price := none
  , size_usdt := P.base_order_usdt, trades := [] }

/-- `qty_from_usdt` (backtest lines 55-56). -/
def qty_from_usdt (usdt price : ℚ) : ℚ := usdt / price

/-- Open-from-flat branch of the backtest loop (lines 67-76). -/
def btOpen (P : BtParams) (s : BtState) (price : ℚ) : BtState :=
  if P.base_order_usdt ≤ P.max_position_usdt then
    { s with pos_qty := s.pos_qty + qty_from_usdt P.base_order_usdt price
           , avg_entry := some price
           , level := 0
           , size_usdt := P.base_order_usdt
           , last_fill_price := some price
           , next_buy_price := some (price * (1 - P.step_pct)) }
  else s

/-- Safety-order branch of the backtest loop (lines 88-101).  Note the
else-arm of the notional-cap check: the code sets `next_buy_price = None`
when the cap blocks the add. -/
def btAdd (P : BtParams) (s : BtState) (price avg : ℚ) : BtState :=
  let next_usdt := s.size_usdt * P.volume_scale
  let current_notional := s.pos_qty * price
  if current_notional + next_usdt ≤ P.max_position_usdt + eps then
    let qty := qty_from_usdt next_usdt price
    let pos_qty := s.pos_qty + qty
    { s with pos_qty := pos_qty
           , avg_entry := some ((avg * (pos_qty - qty) + price * qty) / pos_qty)
           , level := s.level + 1
           , size_usdt := next_usdt
           , last_fill_price := some price
           , next_buy_price := some (price * (1 - P.step_pct)) }
  else
    { s with next_buy_price := none }

/-- One iteration of the backtest loop body (lines 67-101) at a price
sample.  States with `pos_qty ≠ 0` but `avg_entry = none` (on which the
Python would raise) are mapped to themselves; they are unreachable. -/
def btStep (P : BtParams) (s : BtState) (price : ℚ) : BtState :=
  if s.pos_qty = 0 then btOpen P s price
  else
    match s.avg_entry with
    | none => s
    | some avg =>
      if avg * (1 + P.tp_pct) ≤ price then
        { s with equity := s.equity + (price - avg) * s.pos_qty
               , trades := s.trades ++ [⟨(price - avg) * s.pos_qty, s.level + 1, avg, price⟩]
               , pos_qty := 0
               , avg_entry := none
               , level := -1
               , next_buy_price := none
               , last_fill_price := none
               , size_usdt := P.base_order_usdt }
      else
        match s.next_buy_price with
        | none => s
        | some nb =>
          if price ≤ nb ∧ s.level + 1 < P.safety_orders then btAdd P s price avg
          else s

/- ===================== live flip engine =====================
   Embedding of `DogeFlipAggressiveWinOnly`
   (src/doge_dca_grid_live.py).  Venue calls (`place_order`,
   `place_tp`, `cancel_tp`) are external; `mkt_buy`/`mkt_sell` are
   modelled exactly as the code tracks them: the rounded quantity is
   added to `pos_qty` and the entry fee accrues on its notional. -/

inductive Side where
  | long : Side
  | short : Side
  deriving DecidableEq

/-- Per-side parameters (`LongCfg` / `ShortCfg`). -/
structure SideCfg where
  base_usdt : ℚ
  step_pct : ℚ
  volume_scale : ℚ
  max_dca : ℤ
  tp_pct_floor : ℚ
  max_position_usdt : ℚ
  deriving DecidableEq

/-- `RiskCfg`/`GuardCfg` fields used by the claims plus the instrument
filters (`qtyStep`, `minOrderQty`, `tickSize`) read at startup. -/
structure LiveCfg where
  longCfg : SideCfg
  shortCfg : SideCfg
  taker_fee : ℚ
  min_profit_usd : ℚ
  widen_step_level : ℤ
  widen_step_add : ℚ
  short_funding_pause : ℚ
  qty_step : ℚ
  min_qty : ℚ
  tick_size : ℚ
  deriving DecidableEq

/-- Engine state of the live flip bot (fields set in `__init__`; TP
order id, cooldown clock and log timers are external effects). -/
structure LiveState where
  side : Side
  pos_qty : ℚ
  avg_entry : Option ℚ
  level : ℤ
  size_usdt : ℚ
  next_price : Option ℚ
  entry_fees_paid_usd : ℚ
  deriving DecidableEq

/-- `round_qty` (live lines 160-163): floor to the exchange step, then
bump a positive-but-too-small result up to `min_qty`. -/
def roundQty (C : LiveCfg) (q : ℚ) : ℚ :=
  let f : ℚ := (Int.floor (q / C.qty_step) : ℤ) * C.qty_step
  if 0 < f ∧ f < C.min_qty then C.min_qty else f

/-- `round_px` (live lines 165-166): floor to the tick grid. -/
def roundPx (C : LiveCfg) (px : ℚ) : ℚ :=
  (Int.floor (px / C.tick_size) : ℤ) * C.tick_size

/-- `_notional` (live lines 443-444). -/
def notionalOf (s : LiveState) (price : ℚ) : ℚ := s.pos_qty * price

/-- `dynamic_step` (live lines 250-253): the widening addend applies
when the current level is at least `widen_step_level`. -/
def dynamicStep (C : LiveCfg) (side : Side) (level : ℤ) : ℚ :=
  let addw := if C.widen_step_level ≤ level then C.widen_step_add else 0
  let base := match side with
    | Side.long => C.longCfg.step_pct
    | Side.short => C.shortCfg.step_pct
  base + addw

/-- `mkt_buy` (live lines 308-316): round the quantity; a non-positive
rounded quantity places nothing; otherwise `pos_qty` grows by the
rounded quantity and the taker fee on its notional accrues. -/
def mktBuy (C : LiveCfg) (s : LiveState) (qty price : ℚ) : LiveState :=
  let q := roundQty C qty
  if q ≤ 0 then s
  else { s with pos_qty := s.pos_qty + q
              , entry_fees_paid_usd := s.entry_fees_paid_usd + q * price * C.taker_fee }

/-- `mkt_sell` (live lines 318-326); identical position tracking (short
size is tracked positive). -/
def mktSell (C : LiveCfg) (s : LiveState) (qty price : ℚ) : LiveState :=
  let q := roundQty C qty
  if q ≤ 0 then s
  else { s with pos_qty := s.pos_qty + q
              , entry_fees_paid_usd := s.entry_fees_paid_usd + q * price * C.taker_fee }

/-- `expected_net_pnl` (live lines 241-248). -/
def expectedNetPnl (C : LiveCfg) (s : LiveState) (exit_price : ℚ) : ℚ :=
  if s.pos_qty ≤ 0 then 0
  else
    match s.avg_entry with
    | none => 0
    | some avg =>
      let gross := match s.side with
        | Side.long => (exit_price - avg) * s.pos_qty
        | Side.short => (avg - exit_price) * s.pos_qty
      let exit_fee := exit_price * s.pos_qty * C.taker_fee
      gross - s.entry_fees_paid_usd - exit_fee

/-- `calc_tp_target_win_only` (live lines 255-268). -/
def calcTpTarget (C : LiveCfg) (s : LiveState) : Option ℚ :=
  if s.pos_qty ≤ 0 then none
  else
    match s.avg_entry with
    | none => none
    | some avg =>
      let rhs := (s.entry_fees_paid_usd + C.min_profit_usd) / max s.pos_qty eps
      match s.side with
      | Side.long =>
        let P := (avg + rhs) / (1 - C.taker_fee)
        let Pfloor := avg * (1 + C.longCfg.tp_pct_floor)
        some (roundPx C (max P Pfloor))
      | Side.short =>
        let P := (avg - rhs) / (1 + C.taker_fee)
        let Pfloor := avg * (1 - C.shortCfg.tp_pct_floor)
        some (roundPx C (min P Pfloor))

/-- The funding guard at the head of `maybe_open_or_dca` (live lines
362-366); the fetched funding rate is an input (`none` = unavailable). -/
def fundingBlocked (C : LiveCfg) (s : LiveState) (fr : Option ℚ) : Bool :=
  match s.side, fr with
  | Side.short, some f => decide (f < C.short_funding_pause)
  | _, _ => false

/-- `maybe_open_or_dca` (live lines 360-412).  `place_tp` is an
external effect.  States on which the Python would raise (`next_price`
or `avg_entry` being `None` where a float is required) map to
themselves / to the post-buy state; they are unreachable. -/
def maybeOpenOrDca (C : LiveCfg) (s : LiveState) (price : ℚ) (fr : Option ℚ) : LiveState :=
  if fundingBlocked C s fr then s
  else
    let dyn_step := dynamicStep C s.side s.level
    match s.side with
    | Side.long =>
      if s.pos_qty = 0 then
        if C.longCfg.max_position_usdt < notionalOf s price then s
        else
          let s1 := mktBuy C s (C.longCfg.base_usdt / price) price
          { s1 with avg_entry := some price
                  , level := 0
                  , size_usdt := C.longCfg.base_usdt
                  , next_price := some (price * (1 - dyn_step)) }
      else
        match s.next_price with
        | none => s
        | some np =>
          if s.level < C.longCfg.max_dca ∧ price ≤ np then
            let next_usdt := s.size_usdt * C.longCfg.volume_scale
            if notionalOf s price + next_usdt ≤ C.longCfg.max_position_usdt + eps then
              let prev_qty := s.pos_qty
              let s1 := mktBuy C s (next_usdt / price) price
              let filled := max 0 (s1.pos_qty - prev_qty)
              if 0 < filled then
                match s.avg_entry with
                | none => s1
                | some avg =>
                  { s1 with avg_entry := some ((avg * prev_qty + price * filled) / s1.pos_qty)
                          , level := s.level + 1
                          , size_usdt := next_usdt
                          , next_price := some (price * (1 - dynamicStep C s.side (s.level + 1))) }
              else s1
            else s
          else s
    | Side.short =>
      if s.pos_qty = 0 then
        if C.shortCfg.max_position_usdt < notionalOf s price then s
        else
          let s1 := mktSell C s (C.shortCfg.base_usdt / price) price
          { s1 with avg_entry := some price
                  , level := 0
                  , size_usdt := C.shortCfg.base_usdt
                  , next_price := some (price * (1 + dyn_step)) }
      else
        match s.next_price with
        | none => s
        | some np =>
          if s.level < C.shortCfg.max_dca ∧ np ≤ price then
            let next_usdt := s.size_usdt * C.shortCfg.volume_scale
            if notionalOf s price + next_usdt ≤ C.shortCfg.max_position_usdt + eps then
              let prev_qty := s.pos_qty
              let s1 := mktSell C s (next_usdt / price) price
              let filled := max 0 (s1.pos_qty - prev_qty)
              if 0 < filled then
                match s.avg_entry with
                | none => s1
                | some avg =>
                  { s1 with avg_entry := some ((avg * prev_qty + price * filled) / s1.pos_qty)
                          , level := s.level + 1
                          , size_usdt := next_usdt
                          , next_price := some (price * (1 + dynamicStep C s.side (s.level + 1))) }
              else s1
            else s
          else s

/-- `_reset_position_state` (live lines 354-357). -/
def resetPositionState (s : LiveState) : LiveState :=
  { s with pos_qty := 0, avg_entry := none, level := -1
         , size_usdt := 0, next_price := none, entry_fees_paid_usd := 0 }

/- ===================== live v2 engine =====================
   Embedding of `DogeDCA` (src/doge_dca_grid_live_v2_chaydc.py). -/

structure V2Cfg where
  base_order_usdt : ℚ
  safety_orders : ℤ
  step_pct : ℚ
  volume_scale : ℚ
  tp_pct : ℚ
  max_position_usdt : ℚ
  qty_step : ℚ
  min_qty : ℚ
  deriving DecidableEq

structure V2State where
  level : ℤ
  size_usdt : ℚ
  next_buy_price : Option ℚ
  avg_entry : Option ℚ
  pos_qty : ℚ
  deriving DecidableEq

/-- `DogeDCA.round_qty` (v2 lines 90-96); same formula as the flip
bot's `round_qty`. -/
def v2RoundQty (C : V2Cfg) (q : ℚ) : ℚ :=
  let f : ℚ := (Int.floor (q / C.qty_step) : ℤ) * C.qty_step
  if 0 < f ∧ f < C.min_qty then C.min_qty else f

/-- `DogeDCA.market_buy` (v2 lines 116-131): skip when the rounded
quantity is non-positive, else add it to `pos_qty`. -/
def v2MarketBuy (C : V2Cfg) (s : V2State) (qty : ℚ) : V2State :=
  let q := v2RoundQty C qty
  if q ≤ 0 then s else { s with pos_qty := s.pos_qty + q }

/-- `DogeDCA.open_base_if_flat` (v2 lines 150-167); `has_short` is the
externally polled short-exposure flag. -/
def v2OpenBaseIfFlat (C : V2Cfg) (s : V2State) (hasShort : Bool) (price : ℚ) : V2State :=
  if hasShort then s
  else if s.pos_qty = 0 then
    if C.max_position_usdt < C.base_order_usdt then s
    else
      let s1 := v2MarketBuy C s (C.base_order_usdt / price)
      { s1 with avg_entry := some price
              , level := 0
              , size_usdt := C.base_order_usdt
              , next_buy_price := some (price * (1 - C.step_pct)) }
  else s

/-- `DogeDCA.add_safety_if_needed` (v2 lines 169-187). -/
def v2AddSafetyIfNeeded (C : V2Cfg) (s : V2State) (price : ℚ) : V2State :=
  match s.next_buy_price with
  | none => s
  | some nb =>
    if C.safety_orders ≤ s.level + 1 then s
    else
      let current_notional := s.pos_qty * price
      let next_usdt := s.size_usdt * C.volume_scale
      if price ≤ nb ∧ current_notional + next_usdt ≤ C.max_position_usdt + eps then
        let prev_qty := s.pos_qty
        let s1 := v2MarketBuy C s (next_usdt / price)
        let filled := max 0 (s1.pos_qty - prev_qty)
        if 0 < filled then
          match s.avg_entry with
          | none => s1
          | some avg =>
            { s1 with avg_entry := some ((avg * prev_qty + price * filled) / s1.pos_qty)
                    , level := s.level + 1
                    , size_usdt := next_usdt
                    , next_buy_price := some (price * (1 - C.step_pct)) }
        else s1
      else s

/-- `DogeDCA.tp_if_reached` (v2 lines 189-197); `market_sell_all` is an
external close that zeroes `pos_qty`. -/
def v2TpIfReached (C : V2Cfg) (s : V2State) (price : ℚ) : V2State :=
  if 0 < s.pos_qty then
    match s.avg_entry with
    | none => s
    | some avg =>
      if avg * (1 + C.tp_pct) ≤ price then
        { s with pos_qty := 0, level := -1, size_usdt := C.base_order_usdt
               , next_buy_price := none, avg_entry := none }
      else s
  else s

/- ===================== fill-averaging abstraction =====================
   The average-entry update shared verbatim by the three engines
   (backtest line 94, live line 386, v2 line 183). -/

/-- One safety-order update of the average entry price, exactly as the
backtest writes it: with `pos_qty` already incremented,
`avg' = (avg*(pos_qty − qty) + price*qty) / pos_qty`. -/
def avgAdd (avg qtyOld price qty : ℚ) : ℚ :=
  let pos_qty := qtyOld + qty
  (avg * (pos_qty - qty) + price * qty) / pos_qty

/-- Fold of `avgAdd` over a list of fills `(price, qty)`, starting from
a base fill; returns `(avg_entry, pos_qty)`. -/
def runAdds : ℚ → ℚ → List (ℚ × ℚ) → ℚ × ℚ
  | avg, qty, [] => (avg, qty)
  | avg, qty, (p, q) :: rest => runAdds (avgAdd avg qty p q) (qty + q) rest

/-- Total quantity of a list of fills. -/
def sumQty (fills : List (ℚ × ℚ)) : ℚ := (fills.map (fun f => f.2)).sum

/-- Total price*qty of a list of fills. -/
def sumPQ (fills : List (ℚ × ℚ)) : ℚ := (fills.map (fun f => f.1 * f.2)).sum

/- ===================== concrete instances =====================
   Parameter sets and states used by counterexamples and witnesses.
   `exBtParams` are the backtest's own defaults (lines 8-14);
   `exLiveCfg` is the live flip bot's aggressive preset with DOGEUSDT
   instrument filters qtyStep = minOrderQty = 1, tickSize = 1e-4. -/

def exBtParams : BtParams :=
  { base_order_usdt := 10, safety_orders := 12, step_pct := 15/1000
  , volume_scale := 14/10, tp_pct := 8/1000, max_position_usdt := 500 }

/-- An open backtest position at level 0 whose trigger is hit at price 1. -/
def exBtAddState : BtState :=
  { equity := 1000, pos_qty := 100, avg_entry := some 1, level := 0
  , next_buy_price := some 1, last_fill_price := some 1, size_usdt := 10, trades := [] }

/-- An open backtest position whose next add would breach the notional cap. -/
def exBtCapBlocked : BtState :=
  { equity := 1000, pos_qty := 10000, avg_entry := some 1, level := 3
  , next_buy_price := some 1, last_fill_price := some 1, size_usdt := 100, trades := [] }

/-- An open backtest position with the price well above its trigger. -/
def exBtTrigBlocked : BtState :=
  { equity := 1000, pos_qty := 100, avg_entry := some 10, level := 0
  , next_buy_price := some 1, last_fill_price := some 10, size_usdt := 10, trades := [] }

def exLiveCfg : LiveCfg :=
  { longCfg := { base_usdt := 24, step_pct := 55/1000, volume_scale := 118/100
               , max_dca := 7, tp_pct_floor := 1/100, max_position_usdt := 175 }
  , shortCfg := { base_usdt := 10, step_pct := 75/1000, volume_scale := 115/100
                , max_dca := 3, tp_pct_floor := 1/100, max_position_usdt := 85 }
  , taker_fee := 6/10000, min_profit_usd := 1/10
  , widen_step_level := 3, widen_step_add := 3/100
  , short_funding_pause := -6/10000
  , qty_step := 1, min_qty := 1, tick_size := 1/10000 }

/-- Same preset on an instrument whose minimum order quantity is 1000. -/
def exLiveCfgMinQty : LiveCfg := { exLiveCfg with min_qty := 1000 }

/-- Same preset on an instrument with a coarse quantity step of 1000. -/
def exLiveCfgCoarse : LiveCfg := { exLiveCfg with qty_step := 1000, min_qty := 1000 }

/-- Same preset with minimum order quantity 10 (for the rounding claim). -/
def exLiveCfgBump : LiveCfg := { exLiveCfg with min_qty := 10 }

/-- The live flip bot's initial state (`__init__`, lines 122-128). -/
def exLiveFlat : LiveState :=
  { side := Side.long, pos_qty := 0, avg_entry := none, level := -1
  , size_usdt := 0, next_price := none, entry_fees_paid_usd := 0 }

/-- An open long live position used for the TP-target claim. -/
def exLiveC5 : LiveState :=
  { side := Side.long, pos_qty := 10000, avg_entry := some (1001/10000), level := 0
  , size_usdt := 24, next_price := none, entry_fees_paid_usd := 0 }

/-- The short mirror of `exLiveC5`. -/
def exLiveC5Short : LiveState := { exLiveC5 with side := Side.short }

/-- An open long live position at level 0 whose trigger is hit at 1/10. -/
def exLiveAdd : LiveState :=
  { side := Side.long, pos_qty := 100, avg_entry := some (1/10), level := 0
  , size_usdt := 24, next_price := some (1/10), entry_fees_paid_usd := 0 }

/-- The same position at level 3, deep enough for step widening. -/
def exLiveAddDeep : LiveState := { exLiveAdd with level := 3 }

/-- An open short live position at level 0 whose trigger is hit at 1/10. -/
def exLiveShortAdd : LiveState :=
  { side := Side.short, pos_qty := 100, avg_entry := some (1/10), level := 0
  , size_usdt := 10, next_price := some (1/10), entry_fees_paid_usd := 0 }

def exV2Cfg : V2Cfg :=
  { base_order_usdt := 10, safety_orders := 12, step_pct := 15/1000
  , volume_scale := 14/10, tp_pct := 8/1000, max_position_usdt := 500
  , qty_step := 1, min_qty := 1 }

/-- A v2 position at the deepest permitted level (11 of 12). -/
def exV2LevelCap : V2State :=
  { level := 11, size_usdt := 100, next_buy_price := some 1
  , avg_entry := some 1, pos_qty := 100 }

/-- A v2 position with the price well above its trigger. -/
def exV2TrigBlocked : V2State :=
  { level := 0, size_usdt := 10, next_buy_price := some 1
  , avg_entry := some 10, pos_qty := 100 }

/-- Transport of a v2 configuration into the live configuration type:
only the instrument filters matter to `roundQty`. -/
def v2AsLiveCfg (C : V2Cfg) : LiveCfg :=
  { longCfg := ⟨0, 0, 0, 0, 0, 0⟩, shortCfg := ⟨0, 0, 0, 0, 0, 0⟩
  , taker_fee := 0, min_profit_usd := 0, widen_step_level := 0
  , widen_step_add := 0, short_funding_pause := 0
  , qty_step := C.qty_step, min_qty := C.min_qty, tick_size := 0 }

/- ===================== helper lemmas ===================== -/

theorem eps_pos : (0 : ℚ) < eps := by norm_num [eps]

/-- When flat, the backtest step is the open branch. -/
theorem btStep_open (P : BtParams) (s : BtState) (price : ℚ) (hq : s.pos_qty = 0) :
    btStep P s price = btOpen P s price := by
  unfold btStep
  rw [if_pos hq]

/-- The open branch when the base order passes the cap check. -/
theorem btOpen_exec (P : BtParams) (s : BtState) (price : ℚ)
    (hbase : P.base_order_usdt ≤ P.max_position_usdt) :
    btOpen P s price
      = { s with pos_qty := s.pos_qty + qty_from_usdt P.base_order_usdt price
               , avg_entry := some price
               , level := 0
               , size_usdt := P.base_order_usdt
               , last_fill_price := some price
               , next_buy_price := some (price * (1 - P.step_pct)) } := by
  unfold btOpen
  rw [if_pos hbase]

/-- When open with the take-profit condition met, the backtest step
closes the position, realizes the pnl and records one trade. -/
theorem btStep_tp (P : BtParams) (s : BtState) (price avg : ℚ)
    (hq : s.pos_qty ≠ 0) (ha : s.avg_entry = some avg)
    (htp : avg * (1 + P.tp_pct) ≤ price) :
    btStep P s price
      = { s with equity := s.equity + (price - avg) * s.pos_qty
               , trades := s.trades ++ [⟨(price - avg) * s.pos_qty, s.level + 1, avg, price⟩]
               , pos_qty := 0, avg_entry := none, level := -1
               , next_buy_price := none, last_fill_price := none
               , size_usdt := P.base_order_usdt } := by
  unfold btStep
  rw [if_neg hq, ha]
  dsimp only
  rw [if_pos htp]

/-- When open, below TP, with trigger hit and the level cap clear, the
backtest step is the add branch. -/
theorem btStep_add (P : BtParams) (s : BtState) (price avg nb : ℚ)
    (hq : s.pos_qty ≠ 0) (ha : s.avg_entry = some avg)
    (htp : price < avg * (1 + P.tp_pct))
    (hnb : s.next_buy_price = some nb) (hpr : price ≤ nb)
    (hlv : s.level + 1 < P.safety_orders) :
    btStep P s price = btAdd P s price avg := by
  unfold btStep
  rw [if_neg hq, ha]
  dsimp only
  rw [if_neg (not_le.mpr htp), hnb]
  dsimp only
  rw [if_pos ⟨hpr, hlv⟩]

/-- When open, below TP, with the trigger missed or the level cap hit,
the backtest step leaves the state unchanged. -/
theorem btStep_add_blocked (P : BtParams) (s : BtState) (price avg nb : ℚ)
    (hq : s.pos_qty ≠ 0) (ha : s.avg_entry = some avg)
    (htp : price < avg * (1 + P.tp_pct))
    (hnb : s.next_buy_price = some nb)
    (hbl : ¬ (price ≤ nb ∧ s.level + 1 < P.safety_orders)) :
    btStep P s price = s := by
  unfold btStep
  rw [if_neg hq, ha]
  dsimp only
  rw [if_neg (not_le.mpr htp), hnb]
  dsimp only
  rw [if_neg hbl]

/-- The add branch when the notional cap admits the order. -/
theorem btAdd_exec (P : BtParams) (s : BtState) (price avg : ℚ)
    (hcap : s.pos_qty * price + s.size_usdt * P.volume_scale
              ≤ P.max_position_usdt + eps) :
    btAdd P s price avg
      = (let qty := qty_from_usdt (s.size_usdt * P.volume_scale) price
         { s with pos_qty := s.pos_qty + qty
                , avg_entry := some ((avg * (s.pos_qty + qty - qty) + price * qty) / (s.pos_qty + qty))
                , level := s.level + 1
                , size_usdt := s.size_usdt * P.volume_scale
                , last_fill_price := some price
                , next_buy_price := some (price * (1 - P.step_pct)) }) := by
  unfold btAdd
  dsimp only
  rw [if_pos hcap]

/-- The add branch when the notional cap blocks the order: the stored
trigger price is erased. -/
theorem btAdd_capblocked (P : BtParams) (s : BtState) (price avg : ℚ)
    (hcap : ¬ (s.pos_qty * price + s.size_usdt * P.volume_scale
                 ≤ P.max_position_usdt + eps)) :
    btAdd P s price avg = { s with next_buy_price := none } := by
  unfold btAdd
  dsimp only
  rw [if_neg hcap]

/-- The long open branch of the live engine: when flat (and the vacuous
cap check `0 > max` passes), the buy is attempted and the position
fields are set unconditionally, with the trigger computed from the
entry `dynamic_step` (taken at the pre-open level). -/
theorem live_open_long (C : LiveCfg) (s : LiveState) (price : ℚ)
    (hside : s.side = Side.long) (hq : s.pos_qty = 0)
    (hmax : 0 ≤ C.longCfg.max_position_usdt) :
    maybeOpenOrDca C s price none
      = (let s1 := mktBuy C s (C.longCfg.base_usdt / price) price
         { s1 with avg_entry := some price
                 , level := 0
                 , size_usdt := C.longCfg.base_usdt
                 , next_price := some (price * (1 - dynamicStep C s.side s.level)) }) := by
  unfold maybeOpenOrDca
  rw [show fundingBlocked C s none = false from by unfold fundingBlocked; rw [hside]]
  dsimp only
  rw [hside]
  dsimp only
  rw [if_pos hq]
  have hn : ¬ C.longCfg.max_position_usdt < notionalOf s price := by
    unfold notionalOf
    rw [hq, zero_mul]
    exact not_lt.mpr hmax
  rw [if_neg hn]
  simp only [Bool.false_eq_true, if_false]

/-- The long add branch of the live engine when every guard passes and
the rounded order quantity is positive. -/
theorem live_add_long (C : LiveCfg) (s : LiveState) (price np avg : ℚ)
    (hside : s.side = Side.long)
    (hq : s.pos_qty ≠ 0)
    (hnp : s.next_price = some np)
    (hlv : s.level < C.longCfg.max_dca) (hpr : price ≤ np)
    (hcap : s.pos_qty * price + s.size_usdt * C.longCfg.volume_scale
              ≤ C.longCfg.max_position_usdt + eps)
    (ha : s.avg_entry = some avg)
    (hfill : 0 < roundQty C (s.size_usdt * C.longCfg.volume_scale / price)) :
    maybeOpenOrDca C s price none
      = (let q := roundQty C (s.size_usdt * C.longCfg.volume_scale / price)
         { s with pos_qty := s.pos_qty + q
                , entry_fees_paid_usd := s.entry_fees_paid_usd + q * price * C.taker_fee
                , avg_entry := some ((avg * s.pos_qty + price * max 0 q) / (s.pos_qty + q))
                , level := s.level + 1
                , size_usdt := s.size_usdt * C.longCfg.volume_scale
                , next_price := some (price * (1 - dynamicStep C s.side (s.level + 1))) }) := by
  unfold maybeOpenOrDca
  rw [show fundingBlocked C s none = false from by unfold fundingBlocked; rw [hside]]
  dsimp only
  rw [hside]
  dsimp only
  rw [if_neg hq, hnp]
  dsimp only
  simp only [Bool.false_eq_true, if_false]
  rw [if_pos ⟨hlv, hpr⟩]
  have hcap' : notionalOf s price + s.size_usdt * C.longCfg.volume_scale
      ≤ C.longCfg.max_position_usdt + eps := by
    unfold notionalOf; exact hcap
  rw [if_pos hcap']
  have hmk : mktBuy C s (s.size_usdt * C.longCfg.volume_scale / price) price
      = { s with pos_qty := s.pos_qty + roundQty C (s.size_usdt * C.longCfg.volume_scale / price)
               , entry_fees_paid_usd := s.entry_fees_paid_usd
                   + roundQty C (s.size_usdt * C.longCfg.volume_scale / price) * price * C.taker_fee } := by
    unfold mktBuy
    rw [if_neg (not_le.mpr hfill)]
  rw [hmk]
  dsimp only
  rw [add_sub_cancel_left, ha]
  dsimp only
  rw [if_pos (lt_of_lt_of_le hfill (le_max_right 0 _)), hside]

/-- The short add branch of the live engine (funding rate unavailable)
when every guard passes and the rounded order quantity is positive. -/
theorem live_add_short (C : LiveCfg) (s : LiveState) (price np avg : ℚ)
    (hside : s.side = Side.short)
    (hq : s.pos_qty ≠ 0)
    (hnp : s.next_price = some np)
    (hlv : s.level < C.shortCfg.max_dca) (hpr : np ≤ price)
    (hcap : s.pos_qty * price + s.size_usdt * C.shortCfg.volume_scale
              ≤ C.shortCfg.max_position_usdt + eps)
    (ha : s.avg_entry = some avg)
    (hfill : 0 < roundQty C (s.size_usdt * C.shortCfg.volume_scale / price)) :
    maybeOpenOrDca C s price none
      = (let q := roundQty C (s.size_usdt * C.shortCfg.volume_scale / price)
         { s with pos_qty := s.pos_qty + q
                , entry_fees_paid_usd := s.entry_fees_paid_usd + q * price * C.taker_fee
                , avg_entry := some ((avg * s.pos_qty + price * max 0 q) / (s.pos_qty + q))
                , level := s.level + 1
                , size_usdt := s.size_usdt * C.shortCfg.volume_scale
                , next_price := some (price * (1 + dynamicStep C s.side (s.level + 1))) }) := by
  unfold maybeOpenOrDca
  rw [show fundingBlocked C s none = false from by unfold fundingBlocked; rw [hside]]
  dsimp only
  rw [hside]
  dsimp only
  rw [if_neg hq, hnp]
  dsimp only
  simp only [Bool.false_eq_true, if_false]
  rw [if_pos ⟨hlv, hpr⟩]
  have hcap' : notionalOf s price + s.size_usdt * C.shortCfg.volume_scale
      ≤ C.shortCfg.max_position_usdt + eps := by
    unfold notionalOf; exact hcap
  rw [if_pos hcap']
  have hmk : mktSell C s (s.size_usdt * C.shortCfg.volume_scale / price) price
      = { s with pos_qty := s.pos_qty + roundQty C (s.size_usdt * C.shortCfg.volume_scale / price)
               , entry_fees_paid_usd := s.entry_fees_paid_usd
                   + roundQty C (s.size_usdt * C.shortCfg.volume_scale / price) * price * C.taker_fee } := by
    unfold mktSell
    rw [if_neg (not_le.mpr hfill)]
  rw [hmk]
  dsimp only
  rw [add_sub_cancel_left, ha]
  dsimp only
  rw [if_pos (lt_of_lt_of_le hfill (le_max_right 0 _)), hside]

/-- v2: an add with no stored trigger is a no-op. -/
theorem v2Add_none (C : V2Cfg) (s : V2State) (price : ℚ)
    (hnb : s.next_buy_price = none) :
    v2AddSafetyIfNeeded C s price = s := by
  unfold v2AddSafetyIfNeeded
  rw [hnb]

/-- v2: an add blocked by the level cap is a no-op. -/
theorem v2Add_levelcap (C : V2Cfg) (s : V2State) (price nb : ℚ)
    (hnb : s.next_buy_price = some nb) (hlv : C.safety_orders ≤ s.level + 1) :
    v2AddSafetyIfNeeded C s price = s := by
  unfold v2AddSafetyIfNeeded
  rw [hnb]
  dsimp only
  rw [if_pos hlv]

/-- v2: an add whose trigger is missed or whose projected notional
breaches the cap is a no-op. -/
theorem v2Add_guardfail (C : V2Cfg) (s : V2State) (price nb : ℚ)
    (hnb : s.next_buy_price = some nb) (hlv : ¬ C.safety_orders ≤ s.level + 1)
    (hbl : ¬ (price ≤ nb ∧ s.pos_qty * price + s.size_usdt * C.volume_scale
                ≤ C.max_position_usdt + eps)) :
    v2AddSafetyIfNeeded C s price = s := by
  unfold v2AddSafetyIfNeeded
  rw [hnb]
  dsimp only
  rw [if_neg hlv]
  rw [if_neg hbl]

/-- v2: the take-profit branch when the condition holds. -/
theorem v2Tp_exec (C : V2Cfg) (s : V2State) (price avg : ℚ)
    (hq : 0 < s.pos_qty) (ha : s.avg_entry = some avg)
    (htp : avg * (1 + C.tp_pct) ≤ price) :
    v2TpIfReached C s price
      = { s with pos_qty := 0, level := -1, size_usdt := C.base_order_usdt
               , next_buy_price := none, avg_entry := none } := by
  unfold v2TpIfReached
  rw [if_pos hq, ha]
  dsimp only
  rw [if_pos htp]

/-- The two `round_qty` implementations share their formula. -/
theorem v2RoundQty_as_live (C : V2Cfg) (q : ℚ) :
    v2RoundQty C q = roundQty (v2AsLiveCfg C) q := rfl

/-- `runAdds` computes the quantity-weighted mean of all fills: the
running pair is `(Σ pᵢqᵢ / Σ qᵢ, Σ qᵢ)`. -/
theorem runAdds_weighted_mean (fills : List (ℚ × ℚ)) :
    ∀ avg qty : ℚ, 0 < qty → (∀ f ∈ fills, 0 < f.2) →
      runAdds avg qty fills
        = ((avg * qty + sumPQ fills) / (qty + sumQty fills), qty + sumQty fills) := by
  induction fills with
  | nil =>
    intro avg qty hq _
    unfold runAdds
    simp [sumPQ, sumQty]
    rw [mul_div_assoc, div_self (ne_of_gt hq), mul_one]
  | cons f rest ih =>
    intro avg qty hq hf
    have hfq : 0 < f.2 := hf f (List.mem_cons_self f rest)
    have hrest : ∀ g ∈ rest, 0 < g.2 := fun g hg => hf g (List.mem_cons_of_mem _ hg)
    obtain ⟨p, q⟩ := f
    have hq' : 0 < qty + q := by
      have : (0 : ℚ) < q := hfq
      linarith
    show runAdds (avgAdd avg qty p q) (qty + q) rest = _
    rw [ih (avgAdd avg qty p q) (qty + q) hq' hrest]
    have havg : avgAdd avg qty p q * (qty + q) = avg * qty + p * q := by
      unfold avgAdd
      dsimp only
      rw [div_mul_cancel₀ _ (ne_of_gt hq')]
      ring
    have hpq : sumPQ ((p, q) :: rest) = p * q + sumPQ rest := by
      simp [sumPQ]
    have hqq : sumQty ((p, q) :: rest) = q + sumQty rest := by
      simp [sumQty]
    rw [havg, hpq, hqq, add_assoc, add_assoc]

/-- `roundQty` on a positive requested quantity returns 0 exactly when
the request is below one step, and otherwise at least `min_qty`. -/
theorem roundQty_zero_or_min (C : LiveCfg) (q : ℚ)
    (hq : 0 < q) (hs : 0 < C.qty_step) :
    (roundQty C q = 0 ∨ C.min_qty ≤ roundQty C q)
    ∧ (roundQty C q = 0 ↔ q < C.qty_step) := by
  unfold roundQty
  have hd : 0 ≤ q / C.qty_step := le_of_lt (div_pos hq hs)
  have hf0 : 0 ≤ ((Int.floor (q / C.qty_step) : ℤ) : ℚ) * C.qty_step := by
    apply mul_nonneg _ hs.le
    exact_mod_cast Int.floor_nonneg.mpr hd
  constructor
  · by_cases hb : 0 < ((Int.floor (q / C.qty_step) : ℤ) : ℚ) * C.qty_step
        ∧ ((Int.floor (q / C.qty_step) : ℤ) : ℚ) * C.qty_step < C.min_qty
    · rw [if_pos hb]
      right; exact le_refl _
    · rw [if_neg hb]
      rcases eq_or_lt_of_le hf0 with h0 | hpos
      · left; exact h0.symm
      · right
        by_contra hlt
        push_neg at hlt
        exact hb ⟨hpos, hlt⟩
  · constructor
    · intro h0
      by_cases hb : 0 < ((Int.floor (q / C.qty_step) : ℤ) : ℚ) * C.qty_step
          ∧ ((Int.floor (q / C.qty_step) : ℤ) : ℚ) * C.qty_step < C.min_qty
      · rw [if_pos hb] at h0
        exfalso
        have := hb.1
        have := hb.2
        linarith
      · rw [if_neg hb] at h0
        have hfl : Int.floor (q / C.qty_step) = 0 := by
          rcases mul_eq_zero.mp h0 with hz | hz
          · exact_mod_cast hz
          · exact absurd hz (ne_of_gt hs)
        have hlt1 : q / C.qty_step < 1 := (Int.floor_eq_zero_iff.mp hfl).2
        exact (div_lt_one hs).mp hlt1
    · intro hlt
      have hfl : Int.floor (q / C.qty_step) = 0 := by
        rw [Int.floor_eq_zero_iff]
        exact ⟨hd, (div_lt_one hs).mpr hlt⟩
      have hz : ((Int.floor (q / C.qty_step) : ℤ) : ℚ) * C.qty_step = 0 := by
        rw [hfl]
        norm_num
      rw [if_neg (by rw [hz]; intro hc; exact lt_irrefl 0 hc.1)]
      exact hz

/-- `roundQty` substitutes `min_qty` whenever the floored quantity is
positive but below the exchange minimum. -/
theorem roundQty_bump (C : LiveCfg) (q : ℚ)
    (hpos : 0 < ((Int.floor (q / C.qty_step) : ℤ) : ℚ) * C.qty_step)
    (hlt : ((Int.floor (q / C.qty_step) : ℤ) : ℚ) * C.qty_step < C.min_qty) :
    roundQty C q = C.min_qty := by
  unfold roundQty
  rw [if_pos ⟨hpos, hlt⟩]

/-- Flooring to the tick grid never rounds up. -/
theorem roundPx_le (C : LiveCfg) (px : ℚ) (ht : 0 < C.tick_size) :
    roundPx C px ≤ px := by
  unfold roundPx
  rw [← le_div_iff₀ ht]
  exact Int.floor_le _

/-- Flooring to the tick grid loses less than one tick. -/
theorem roundPx_gt (C : LiveCfg) (px : ℚ) (ht : 0 < C.tick_size) :
    px - C.tick_size < roundPx C px := by
  unfold roundPx
  have h := Int.lt_floor_add_one (px / C.tick_size)
  have h2 : px < ((Int.floor (px / C.tick_size) : ℤ) + 1 : ℚ) * C.tick_size := by
    rw [← div_lt_iff₀ ht]
    exact_mod_cast h
  have h3 : (((Int.floor (px / C.tick_size) : ℤ) : ℚ) + 1) * C.tick_size
      = ((Int.floor (px / C.tick_size) : ℤ) : ℚ) * C.tick_size + C.tick_size := by
    ring
  push_cast at h2
  linarith

/-- `expected_net_pnl` on an open long position. -/
theorem expectedNetPnl_long (C : LiveCfg) (s : LiveState) (avg x : ℚ)
    (hq : 0 < s.pos_qty) (ha : s.avg_entry = some avg)
    (hside : s.side = Side.long) :
    expectedNetPnl C s x
      = (x - avg) * s.pos_qty - s.entry_fees_paid_usd - x * s.pos_qty * C.taker_fee := by
  unfold expectedNetPnl
  rw [if_neg (not_le.mpr hq), ha]
  dsimp only
  rw [hside]

/-- `expected_net_pnl` on an open short position. -/
theorem expectedNetPnl_short (C : LiveCfg) (s : LiveState) (avg x : ℚ)
    (hq : 0 < s.pos_qty) (ha : s.avg_entry = some avg)
    (hside : s.side = Side.short) :
    expectedNetPnl C s x
      = (avg - x) * s.pos_qty - s.entry_fees_paid_usd - x * s.pos_qty * C.taker_fee := by
  unfold expectedNetPnl
  rw [if_neg (not_le.mpr hq), ha]
  dsimp only
  rw [hside]

/-- `calc_tp_target_win_only` on an open long position whose quantity
is at least the `1e-9` guard. -/
theorem calcTpTarget_long (C : LiveCfg) (s : LiveState) (avg : ℚ)
    (hq : eps ≤ s.pos_qty) (ha : s.avg_entry = some avg)
    (hside : s.side = Side.long) :
    calcTpTarget C s
      = some (roundPx C
          (max ((avg + (s.entry_fees_paid_usd + C.min_profit_usd) / s.pos_qty) / (1 - C.taker_fee))
               (avg * (1 + C.longCfg.tp_pct_floor)))) := by
  have hq0 : 0 < s.pos_qty := lt_of_lt_of_le eps_pos hq
  unfold calcTpTarget
  rw [if_neg (not_le.mpr hq0), ha]
  dsimp only
  rw [hside]
  dsimp only
  rw [max_eq_left hq]

/-- `calc_tp_target_win_only` on an open short position whose quantity
is at least the `1e-9` guard. -/
theorem calcTpTarget_short (C : LiveCfg) (s : LiveState) (avg : ℚ)
    (hq : eps ≤ s.pos_qty) (ha : s.avg_entry = some avg)
    (hside : s.side = Side.short) :
    calcTpTarget C s
      = some (roundPx C
          (min ((avg - (s.entry_fees_paid_usd + C.min_profit_usd) / s.pos_qty) / (1 + C.taker_fee))
               (avg * (1 - C.shortCfg.tp_pct_floor)))) := by
  have hq0 : 0 < s.pos_qty := lt_of_lt_of_le eps_pos hq
  unfold calcTpTarget
  rw [if_neg (not_le.mpr hq0), ha]
  dsimp only
  rw [hside]
  dsimp only
  rw [max_eq_left hq]

/- ===================== claims ===================== -/

/-- Claim C1 counterexample: starting from the live flip bot's initial
(flat) state on an instrument with minimum order quantity 1000, the
very first evaluation at price 1 opens a position whose committed
notional (1000) exceeds `max_position_notional + eps` (175 + 1e-9):
the cap check is made on the unrounded quantity and `round_qty` bumps
the order up to the exchange minimum. -/
theorem c1_notional_cap_counterexample :
    exLiveFlat.pos_qty = 0
    ∧ exLiveCfgMinQty.longCfg.max_position_usdt + eps
        < notionalOf (maybeOpenOrDca exLiveCfgMinQty exLiveFlat 1 none) 1 := by
  constructor
  · rfl
  · norm_num [maybeOpenOrDca, mktBuy, roundQty, fundingBlocked, dynamicStep,
      notionalOf, exLiveCfgMinQty, exLiveCfg, exLiveFlat, eps]

/-- Claim C1 (amended): in the backtest engine the invariant holds —
after an executed open the committed notional equals the base order
size and stays within the cap, and after an executed safety-order add
it is at most `max_position_usdt + eps`.  The live engines apply the
same pre-trade check to the unrounded quantity, and exchange-minimum
rounding can push the actually committed notional past the cap. -/
theorem c1_backtest_notional_cap :
    (∀ (P : BtParams) (s : BtState) (price : ℚ), price ≠ 0 → s.pos_qty = 0 →
       P.base_order_usdt ≤ P.max_position_usdt →
       (btStep P s price).pos_qty * price ≤ P.max_position_usdt + eps)
    ∧ (∀ (P : BtParams) (s : BtState) (price avg nb : ℚ), price ≠ 0 →
       s.pos_qty ≠ 0 → s.avg_entry = some avg → price < avg * (1 + P.tp_pct) →
       s.next_buy_price = some nb → price ≤ nb → s.level + 1 < P.safety_orders →
       s.pos_qty * price + s.size_usdt * P.volume_scale ≤ P.max_position_usdt + eps →
       (btStep P s price).pos_qty * price ≤ P.max_position_usdt + eps) := by
  constructor
  · intro P s price hp hq hbase
    rw [btStep_open P s price hq, btOpen_exec P s price hbase]
    dsimp only
    rw [hq, zero_add]
    unfold qty_from_usdt
    rw [div_mul_cancel₀ _ hp]
    linarith [eps_pos]
  · intro P s price avg nb hp hq ha htp hnb hpr hlv hcap
    rw [btStep_add P s price avg nb hq ha htp hnb hpr hlv,
        btAdd_exec P s price avg hcap]
    dsimp only
    unfold qty_from_usdt
    rw [add_mul, div_mul_cancel₀ _ hp]
    exact hcap

/-- Witness for `c1_backtest_notional_cap` at the backtest defaults:
an open from flat at price 1 and an add from `exBtAddState` at price 1
both leave the notional within the cap. -/
theorem c1_backtest_notional_cap_witness :
    (btStep exBtParams (btInit exBtParams 1000) 1).pos_qty * 1
        ≤ exBtParams.max_position_usdt + eps
    ∧ (btStep exBtParams exBtAddState 1).pos_qty * 1
        ≤ exBtParams.max_position_usdt + eps :=
  ⟨c1_backtest_notional_cap.1 exBtParams (btInit exBtParams 1000) 1
      (by norm_num) rfl (by norm_num [exBtParams]),
   c1_backtest_notional_cap.2 exBtParams exBtAddState 1 1 1
      (by norm_num) (by norm_num [exBtAddState]) rfl
      (by norm_num [exBtParams, exBtAddState])
      rfl (le_refl 1) (by norm_num [exBtParams, exBtAddState])
      (by norm_num [exBtParams, exBtAddState, eps])⟩

/-- Claim C2: after an executed safety-order add the backtest engine
updates `avg_entry` by exactly the shared weighted-mean formula
(`avgAdd`), and folding that formula over any sequence of positive
fills from the base fill yields the quantity-weighted mean of all fill
prices seen since the last flat transition. -/
theorem c2_avg_weighted_mean :
    (∀ (P : BtParams) (s : BtState) (price avg nb : ℚ),
       s.pos_qty ≠ 0 → s.avg_entry = some avg → price < avg * (1 + P.tp_pct) →
       s.next_buy_price = some nb → price ≤ nb → s.level + 1 < P.safety_orders →
       s.pos_qty * price + s.size_usdt * P.volume_scale ≤ P.max_position_usdt + eps →
       (btStep P s price).avg_entry
         = some (avgAdd avg s.pos_qty price
             (qty_from_usdt (s.size_usdt * P.volume_scale) price)))
    ∧ (∀ (p0 q0 : ℚ) (fills : List (ℚ × ℚ)), 0 < q0 → (∀ f ∈ fills, 0 < f.2) →
       (runAdds p0 q0 fills).1 = (p0 * q0 + sumPQ fills) / (q0 + sumQty fills)
       ∧ (runAdds p0 q0 fills).2 = q0 + sumQty fills) := by
  constructor
  · intro P s price avg nb hq ha htp hnb hpr hlv hcap
    rw [btStep_add P s price avg nb hq ha htp hnb hpr hlv,
        btAdd_exec P s price avg hcap]
    rfl
  · intro p0 q0 fills h0 hf
    rw [runAdds_weighted_mean fills p0 q0 h0 hf]
    exact ⟨rfl, rfl⟩

/-- Witness for `c2_avg_weighted_mean`: a concrete add and a concrete
two-fill sequence. -/
theorem c2_avg_weighted_mean_witness :
    (btStep exBtParams exBtAddState 1).avg_entry
      = some (avgAdd 1 exBtAddState.pos_qty 1
          (qty_from_usdt (exBtAddState.size_usdt * exBtParams.volume_scale) 1))
    ∧ (runAdds 1 1 [(1/2, 2)]).1 = (1 * 1 + sumPQ [(1/2, 2)]) / (1 + sumQty [(1/2, 2)])
    ∧ (runAdds 1 1 [(1/2, 2)]).2 = 1 + sumQty [(1/2, 2)] := by
  obtain ⟨h2, h3⟩ := c2_avg_weighted_mean.2 1 1 [(1/2, 2)] (by norm_num)
    (by intro f hf; rw [List.mem_singleton] at hf; subst hf; norm_num)
  exact ⟨c2_avg_weighted_mean.1 exBtParams exBtAddState 1 1 1
      (by norm_num [exBtAddState]) rfl (by norm_num [exBtParams]) rfl (le_refl 1)
      (by norm_num [exBtParams, exBtAddState])
      (by norm_num [exBtParams, exBtAddState, eps]), h2, h3⟩

/-- Claim C3 counterexample: in the backtest, a safety order blocked by
the notional cap is not a silent no-op — the stored trigger price is
cleared to `None`, so the engine cannot attempt the add again on a
later sample before the position closes. -/
theorem c3_capblock_clears_trigger :
    exBtCapBlocked.next_buy_price = some 1
    ∧ (btStep exBtParams exBtCapBlocked 1).next_buy_price = none :=
  ⟨rfl, by norm_num [btStep, btAdd, exBtParams, exBtCapBlocked, eps]⟩

/-- Claim C3 (amended): a level-cap block or a missed trigger leaves
the backtest state unchanged, and any blocked v2 add (level cap,
missed trigger or notional cap) is a strict no-op; but a backtest add
blocked by the notional cap erases the stored trigger price and
changes nothing else. -/
theorem c3_blocked_add_amended :
    (∀ (P : BtParams) (s : BtState) (price avg nb : ℚ),
       s.pos_qty ≠ 0 → s.avg_entry = some avg → price < avg * (1 + P.tp_pct) →
       s.next_buy_price = some nb →
       ¬ (price ≤ nb ∧ s.level + 1 < P.safety_orders) →
       btStep P s price = s)
    ∧ (∀ (P : BtParams) (s : BtState) (price avg nb : ℚ),
       s.pos_qty ≠ 0 → s.avg_entry = some avg → price < avg * (1 + P.tp_pct) →
       s.next_buy_price = some nb → price ≤ nb → s.level + 1 < P.safety_orders →
       ¬ (s.pos_qty * price + s.size_usdt * P.volume_scale ≤ P.max_position_usdt + eps) →
       btStep P s price = { s with next_buy_price := none })
    ∧ (∀ (C : V2Cfg) (s : V2State) (price nb : ℚ),
       s.next_buy_price = some nb → C.safety_orders ≤ s.level + 1 →
       v2AddSafetyIfNeeded C s price = s)
    ∧ (∀ (C : V2Cfg) (s : V2State) (price nb : ℚ),
       s.next_buy_price = some nb → ¬ C.safety_orders ≤ s.level + 1 →
       ¬ (price ≤ nb ∧ s.pos_qty * price + s.size_usdt * C.volume_scale
            ≤ C.max_position_usdt + eps) →
       v2AddSafetyIfNeeded C s price = s) := by
  refine ⟨?_, ?_, ?_, ?_⟩
  · intro P s price avg nb hq ha htp hnb hbl
    exact btStep_add_blocked P s price avg nb hq ha htp hnb hbl
  · intro P s price avg nb hq ha htp hnb hpr hlv hcap
    rw [btStep_add P s price avg nb hq ha htp hnb hpr hlv]
    exact btAdd_capblocked P s price avg hcap
  · intro C s price nb hnb hlv
    exact v2Add_levelcap C s price nb hnb hlv
  · intro C s price nb hnb hlv hbl
    exact v2Add_guardfail C s price nb hnb hlv hbl

/-- Witness for `c3_blocked_add_amended` on concrete blocked states. -/
theorem c3_blocked_add_amended_witness :
    btStep exBtParams exBtTrigBlocked 2 = exBtTrigBlocked
    ∧ btStep exBtParams exBtCapBlocked 1 = { exBtCapBlocked with next_buy_price := none }
    ∧ v2AddSafetyIfNeeded exV2Cfg exV2LevelCap 1 = exV2LevelCap
    ∧ v2AddSafetyIfNeeded exV2Cfg exV2TrigBlocked 2 = exV2TrigBlocked :=
  ⟨c3_blocked_add_amended.1 exBtParams exBtTrigBlocked 2 10 1
      (by norm_num [exBtTrigBlocked]) rfl (by norm_num [exBtParams]) rfl (by norm_num),
   c3_blocked_add_amended.2.1 exBtParams exBtCapBlocked 1 1 1
      (by norm_num [exBtCapBlocked]) rfl (by norm_num [exBtParams]) rfl (le_refl 1)
      (by norm_num [exBtParams, exBtCapBlocked])
      (by norm_num [exBtParams, exBtCapBlocked, eps]),
   c3_blocked_add_amended.2.2.1 exV2Cfg exV2LevelCap 1 1 rfl
      (by norm_num [exV2Cfg, exV2LevelCap]),
   c3_blocked_add_amended.2.2.2 exV2Cfg exV2TrigBlocked 2 1 rfl
      (by norm_num [exV2Cfg, exV2TrigBlocked]) (by norm_num)⟩

/-- Claim C4: when the take-profit condition holds on an open position,
the very next evaluation closes the whole position: quantity becomes
exactly 0, `avg_entry` becomes `None`, `level` becomes −1, realized
pnl `(exit − avg)·qty` is added to equity, and exactly one trade record
is appended (backtest); the v2 live engine resets the same fields. -/
theorem c4_tp_closes_entirely :
    (∀ (P : BtParams) (s : BtState) (price avg : ℚ),
       s.pos_qty ≠ 0 → s.avg_entry = some avg → avg * (1 + P.tp_pct) ≤ price →
       (btStep P s price).pos_qty = 0
       ∧ (btStep P s price).avg_entry = none
       ∧ (btStep P s price).level = -1
       ∧ (btStep P s price).equity = s.equity + (price - avg) * s.pos_qty
       ∧ (btStep P s price).trades
           = s.trades ++ [⟨(price - avg) * s.pos_qty, s.level + 1, avg, price⟩])
    ∧ (∀ (C : V2Cfg) (s : V2State) (price avg : ℚ),
       0 < s.pos_qty → s.avg_entry = some avg → avg * (1 + C.tp_pct) ≤ price →
       (v2TpIfReached C s price).pos_qty = 0
       ∧ (v2TpIfReached C s price).avg_entry = none
       ∧ (v2TpIfReached C s price).level = -1) := by
  constructor
  · intro P s price avg hq ha htp
    rw [btStep_tp P s price avg hq ha htp]
    exact ⟨rfl, rfl, rfl, rfl, rfl⟩
  · intro C s price avg hq ha htp
    rw [v2Tp_exec C s price avg hq ha htp]
    exact ⟨rfl, rfl, rfl⟩

/-- Witness for `c4_tp_closes_entirely` on concrete TP-hit states. -/
theorem c4_tp_closes_entirely_witness :
    (btStep exBtParams exBtAddState 2).pos_qty = 0
    ∧ (btStep exBtParams exBtAddState 2).avg_entry = none
    ∧ (btStep exBtParams exBtAddState 2).level = -1
    ∧ (btStep exBtParams exBtAddState 2).equity
        = exBtAddState.equity + (2 - 1) * exBtAddState.pos_qty
    ∧ (btStep exBtParams exBtAddState 2).trades
        = exBtAddState.trades
            ++ [⟨(2 - 1) * exBtAddState.pos_qty, exBtAddState.level + 1, 1, 2⟩]
    ∧ (v2TpIfReached exV2Cfg exV2LevelCap 2).pos_qty = 0
    ∧ (v2TpIfReached exV2Cfg exV2LevelCap 2).avg_entry = none
    ∧ (v2TpIfReached exV2Cfg exV2LevelCap 2).level = -1 := by
  obtain ⟨h1, h2, h3, h4, h5⟩ := c4_tp_closes_entirely.1 exBtParams exBtAddState 2 1
    (by norm_num [exBtAddState]) rfl (by norm_num [exBtParams])
  obtain ⟨h6, h7, h8⟩ := c4_tp_closes_entirely.2 exV2Cfg exV2LevelCap 2 1
    (by norm_num [exV2LevelCap]) rfl (by norm_num [exV2Cfg])
  exact ⟨h1, h2, h3, h4, h5, h6, h7, h8⟩

/-- Claim C5 counterexample: with the aggressive preset on a 1e-4 tick
grid, a long position with `avg = 0.1001` gets the TP target
`round_px(max(P, avg·1.01)) = 0.1011`, which is strictly closer to the
average than the `tp_pct_floor` distance (`avg·1.01 = 0.101101`): the
final tick-flooring step undercuts the floor guarantee. -/
theorem c5_tp_floor_counterexample :
    calcTpTarget exLiveCfg exLiveC5 = some (1011/10000)
    ∧ (1011/10000 : ℚ) < (1001/10000) * (1 + exLiveCfg.longCfg.tp_pct_floor)
    ∧ exLiveC5.avg_entry = some (1001/10000) := by
  refine ⟨?_, by norm_num [exLiveCfg], rfl⟩
  norm_num [calcTpTarget, roundPx, exLiveCfg, exLiveC5, eps]

/-- Claim C5 (amended): the pre-rounding win-only target `T` (the
fee-solved price floored/capped by the `tp_pct_floor` distance) does
satisfy `net_pnl(T) ≥ min_profit_usd` and the floor distance, for both
sides; the value the engine actually returns is `T` floored to the
tick grid, which lies within one tick below `T` and can therefore
undershoot both guarantees by up to one tick. -/
theorem c5_tp_target_amended :
    (∀ (C : LiveCfg) (s : LiveState) (avg T : ℚ),
       s.side = Side.long → s.avg_entry = some avg → eps ≤ s.pos_qty →
       0 ≤ C.taker_fee → C.taker_fee < 1 → 0 < C.tick_size →
       T = max ((avg + (s.entry_fees_paid_usd + C.min_profit_usd) / s.pos_qty)
                  / (1 - C.taker_fee))
               (avg * (1 + C.longCfg.tp_pct_floor)) →
       C.min_profit_usd ≤ expectedNetPnl C s T
       ∧ avg * (1 + C.longCfg.tp_pct_floor) ≤ T
       ∧ T - C.tick_size < roundPx C T
       ∧ roundPx C T ≤ T
       ∧ calcTpTarget C s = some (roundPx C T))
    ∧ (∀ (C : LiveCfg) (s : LiveState) (avg T : ℚ),
       s.side = Side.short → s.avg_entry = some avg → eps ≤ s.pos_qty →
       0 ≤ C.taker_fee → 0 < C.tick_size →
       T = min ((avg - (s.entry_fees_paid_usd + C.min_profit_usd) / s.pos_qty)
                  / (1 + C.taker_fee))
               (avg * (1 - C.shortCfg.tp_pct_floor)) →
       C.min_profit_usd ≤ expectedNetPnl C s T
       ∧ T ≤ avg * (1 - C.shortCfg.tp_pct_floor)
       ∧ T - C.tick_size < roundPx C T
       ∧ roundPx C T ≤ T
       ∧ calcTpTarget C s = some (roundPx C T)) := by
  constructor
  · intro C s avg T hside ha hq hfee0 hfee1 ht hT
    have hq0 : 0 < s.pos_qty := lt_of_lt_of_le eps_pos hq
    have h1f : 0 < 1 - C.taker_fee := by linarith
    refine ⟨?_, ?_, roundPx_gt C T ht, roundPx_le C T ht, ?_⟩
    · rw [expectedNetPnl_long C s avg T hq0 ha hside]
      have hP : (avg + (s.entry_fees_paid_usd + C.min_profit_usd) / s.pos_qty)
          / (1 - C.taker_fee) ≤ T := by
        rw [hT]; exact le_max_left _ _
      have e1 : (avg + (s.entry_fees_paid_usd + C.min_profit_usd) / s.pos_qty)
          / (1 - C.taker_fee) * ((1 - C.taker_fee) * s.pos_qty)
          = avg * s.pos_qty + (s.entry_fees_paid_usd + C.min_profit_usd) := by
        rw [← mul_assoc, div_mul_cancel₀ _ (ne_of_gt h1f), add_mul,
            div_mul_cancel₀ _ (ne_of_gt hq0)]
      have h3 : (avg + (s.entry_fees_paid_usd + C.min_profit_usd) / s.pos_qty)
          / (1 - C.taker_fee) * ((1 - C.taker_fee) * s.pos_qty)
          ≤ T * ((1 - C.taker_fee) * s.pos_qty) :=
        mul_le_mul_of_nonneg_right hP (by positivity)
      have h5 : avg * s.pos_qty + (s.entry_fees_paid_usd + C.min_profit_usd)
          ≤ T * ((1 - C.taker_fee) * s.pos_qty) := by
        rw [← e1]; exact h3
      have hg : (T - avg) * s.pos_qty - s.entry_fees_paid_usd - T * s.pos_qty * C.taker_fee
          = T * ((1 - C.taker_fee) * s.pos_qty) - avg * s.pos_qty - s.entry_fees_paid_usd := by
        ring
      linarith
    · rw [hT]; exact le_max_right _ _
    · rw [calcTpTarget_long C s avg hq ha hside, hT]
  · intro C s avg T hside ha hq hfee0 ht hT
    have hq0 : 0 < s.pos_qty := lt_of_lt_of_le eps_pos hq
    have h1f : 0 < 1 + C.taker_fee := by linarith
    refine ⟨?_, ?_, roundPx_gt C T ht, roundPx_le C T ht, ?_⟩
    · rw [expectedNetPnl_short C s avg T hq0 ha hside]
      have hP : T ≤ (avg - (s.entry_fees_paid_usd + C.min_profit_usd) / s.pos_qty)
          / (1 + C.taker_fee) := by
        rw [hT]; exact min_le_left _ _
      have e1 : (avg - (s.entry_fees_paid_usd + C.min_profit_usd) / s.pos_qty)
          / (1 + C.taker_fee) * ((1 + C.taker_fee) * s.pos_qty)
          = avg * s.pos_qty - (s.entry_fees_paid_usd + C.min_profit_usd) := by
        rw [← mul_assoc, div_mul_cancel₀ _ (ne_of_gt h1f), sub_mul,
            div_mul_cancel₀ _ (ne_of_gt hq0)]
      have h3 : T * ((1 + C.taker_fee) * s.pos_qty)
          ≤ (avg - (s.entry_fees_paid_usd + C.min_profit_usd) / s.pos_qty)
              / (1 + C.taker_fee) * ((1 + C.taker_fee) * s.pos_qty) :=
        mul_le_mul_of_nonneg_right hP (by positivity)
      have h5 : T * ((1 + C.taker_fee) * s.pos_qty)
          ≤ avg * s.pos_qty - (s.entry_fees_paid_usd + C.min_profit_usd) := by
        rw [← e1]; exact h3
      have hg : (avg - T) * s.pos_qty - s.entry_fees_paid_usd - T * s.pos_qty * C.taker_fee
          = avg * s.pos_qty - T * ((1 + C.taker_fee) * s.pos_qty) - s.entry_fees_paid_usd := by
        ring
      linarith
    · rw [hT]; exact min_le_right _ _
    · rw [calcTpTarget_short C s avg hq ha hside, hT]

/-- Witness for `c5_tp_target_amended`: both sides instantiated on the
aggressive preset with `avg = 0.1001`, `qty = 10000` and no accrued
entry fees. -/
theorem c5_tp_target_amended_witness :
    (exLiveCfg.min_profit_usd ≤ expectedNetPnl exLiveCfg exLiveC5 (101101/1000000)
     ∧ (1001/10000 : ℚ) * (1 + exLiveCfg.longCfg.tp_pct_floor) ≤ 101101/1000000
     ∧ (101101/1000000 : ℚ) - exLiveCfg.tick_size < roundPx exLiveCfg (101101/1000000)
     ∧ roundPx exLiveCfg (101101/1000000) ≤ 101101/1000000
     ∧ calcTpTarget exLiveCfg exLiveC5 = some (roundPx exLiveCfg (101101/1000000)))
    ∧ (exLiveCfg.min_profit_usd ≤ expectedNetPnl exLiveCfg exLiveC5Short (99099/1000000)
     ∧ (99099/1000000 : ℚ) ≤ (1001/10000) * (1 - exLiveCfg.shortCfg.tp_pct_floor)
     ∧ (99099/1000000 : ℚ) - exLiveCfg.tick_size < roundPx exLiveCfg (99099/1000000)
     ∧ roundPx exLiveCfg (99099/1000000) ≤ 99099/1000000
     ∧ calcTpTarget exLiveCfg exLiveC5Short = some (roundPx exLiveCfg (99099/1000000))) :=
  ⟨c5_tp_target_amended.1 exLiveCfg exLiveC5 (1001/10000) (101101/1000000)
      rfl rfl (by norm_num [exLiveC5, eps]) (by norm_num [exLiveCfg])
      (by norm_num [exLiveCfg]) (by norm_num [exLiveCfg])
      (by norm_num [exLiveC5, exLiveCfg, max_def]),
   c5_tp_target_amended.2 exLiveCfg exLiveC5Short (1001/10000) (99099/1000000)
      rfl rfl (by norm_num [exLiveC5Short, exLiveC5, eps]) (by norm_num [exLiveCfg])
      (by norm_num [exLiveCfg])
      (by norm_num [exLiveC5Short, exLiveC5, exLiveCfg, min_def])⟩

/-- Claim C6 (bug exhibit): on an instrument whose quantity step is
1000, the live flip bot's open-from-flat at price 1 rounds the base
order quantity (24) down to zero, so nothing is bought — yet the
engine still sets `avg_entry = 1` and `level = 0` with `pos_qty = 0`:
a zero fill on the open path does not leave state unchanged. -/
theorem c6_zero_fill_open_mutates_state :
    (maybeOpenOrDca exLiveCfgCoarse exLiveFlat 1 none).pos_qty = 0
    ∧ (maybeOpenOrDca exLiveCfgCoarse exLiveFlat 1 none).avg_entry = some 1
    ∧ (maybeOpenOrDca exLiveCfgCoarse exLiveFlat 1 none).level = 0
    ∧ (maybeOpenOrDca exLiveCfgCoarse exLiveFlat 1 none).level ≠ exLiveFlat.level := by
  norm_num [maybeOpenOrDca, mktBuy, roundQty, fundingBlocked, dynamicStep,
      notionalOf, exLiveCfgCoarse, exLiveCfg, exLiveFlat, eps]

/-- Claim C7 (bug exhibit): the backtest drops only NaN rows, never
non-positive prices; at a price sample of −1 from the initial flat
state it executes an open with negative quantity (−10) and sets
`avg_entry = −1` — no rejection or skip happens. -/
theorem c7_negative_price_opens_position :
    (btStep exBtParams (btInit exBtParams 1000) (-1)).pos_qty = -10
    ∧ (btStep exBtParams (btInit exBtParams 1000) (-1)).level = 0
    ∧ (btStep exBtParams (btInit exBtParams 1000) (-1)).avg_entry = some (-1) := by
  norm_num [btStep, btOpen, btInit, qty_from_usdt, exBtParams]

/-- Claim C8: after an executed open or add, the next trigger price is
computed from the fill price `p` just used — `p·(1−step)` in the
backtest and `p·(1∓dynamic_step)` in the live flip engine (minus for
Long, plus for Short) — never from the updated average entry price. -/
theorem c8_next_trigger_from_fill :
    (∀ (P : BtParams) (s : BtState) (price : ℚ), s.pos_qty = 0 →
       P.base_order_usdt ≤ P.max_position_usdt →
       (btStep P s price).next_buy_price = some (price * (1 - P.step_pct)))
    ∧ (∀ (P : BtParams) (s : BtState) (price avg nb : ℚ),
       s.pos_qty ≠ 0 → s.avg_entry = some avg → price < avg * (1 + P.tp_pct) →
       s.next_buy_price = some nb → price ≤ nb → s.level + 1 < P.safety_orders →
       s.pos_qty * price + s.size_usdt * P.volume_scale ≤ P.max_position_usdt + eps →
       (btStep P s price).next_buy_price = some (price * (1 - P.step_pct)))
    ∧ (∀ (C : LiveCfg) (s : LiveState) (price np avg : ℚ),
       s.side = Side.long → s.pos_qty ≠ 0 → s.next_price = some np →
       s.level < C.longCfg.max_dca → price ≤ np →
       s.pos_qty * price + s.size_usdt * C.longCfg.volume_scale
         ≤ C.longCfg.max_position_usdt + eps →
       s.avg_entry = some avg →
       0 < roundQty C (s.size_usdt * C.longCfg.volume_scale / price) →
       (maybeOpenOrDca C s price none).next_price
         = some (price * (1 - dynamicStep C Side.long (s.level + 1))))
    ∧ (∀ (C : LiveCfg) (s : LiveState) (price np avg : ℚ),
       s.side = Side.short → s.pos_qty ≠ 0 → s.next_price = some np →
       s.level < C.shortCfg.max_dca → np ≤ price →
       s.pos_qty * price + s.size_usdt * C.shortCfg.volume_scale
         ≤ C.shortCfg.max_position_usdt + eps →
       s.avg_entry = some avg →
       0 < roundQty C (s.size_usdt * C.shortCfg.volume_scale / price) →
       (maybeOpenOrDca C s price none).next_price
         = some (price * (1 + dynamicStep C Side.short (s.level + 1)))) := by
  refine ⟨?_, ?_, ?_, ?_⟩
  · intro P s price hq hbase
    rw [btStep_open P s price hq, btOpen_exec P s price hbase]
  · intro P s price avg nb hq ha htp hnb hpr hlv hcap
    rw [btStep_add P s price avg nb hq ha htp hnb hpr hlv,
        btAdd_exec P s price avg hcap]
  · intro C s price np avg hside hq hnp hlv hpr hcap ha hfill
    rw [live_add_long C s price np avg hside hq hnp hlv hpr hcap ha hfill]
    dsimp only
    rw [hside]
  · intro C s price np avg hside hq hnp hlv hpr hcap ha hfill
    rw [live_add_short C s price np avg hside hq hnp hlv hpr hcap ha hfill]
    dsimp only
    rw [hside]

/-- Witness for `c8_next_trigger_from_fill`: an open and an add in the
backtest, and a long and a short DCA in the live engine. -/
theorem c8_next_trigger_from_fill_witness :
    (btStep exBtParams (btInit exBtParams 1000) 1).next_buy_price
        = some (1 * (1 - exBtParams.step_pct))
    ∧ (btStep exBtParams exBtAddState 1).next_buy_price
        = some (1 * (1 - exBtParams.step_pct))
    ∧ (maybeOpenOrDca exLiveCfg exLiveAdd (1/10) none).next_price
        = some ((1/10) * (1 - dynamicStep exLiveCfg Side.long (exLiveAdd.level + 1)))
    ∧ (maybeOpenOrDca exLiveCfg exLiveShortAdd (1/10) none).next_price
        = some ((1/10) * (1 + dynamicStep exLiveCfg Side.short (exLiveShortAdd.level + 1))) :=
  ⟨c8_next_trigger_from_fill.1 exBtParams (btInit exBtParams 1000) 1
      rfl (by norm_num [exBtParams]),
   c8_next_trigger_from_fill.2.1 exBtParams exBtAddState 1 1 1
      (by norm_num [exBtAddState]) rfl (by norm_num [exBtParams]) rfl (le_refl 1)
      (by norm_num [exBtParams, exBtAddState])
      (by norm_num [exBtParams, exBtAddState, eps]),
   c8_next_trigger_from_fill.2.2.1 exLiveCfg exLiveAdd (1/10) (1/10) (1/10)
      rfl (by norm_num [exLiveAdd]) rfl (by norm_num [exLiveCfg, exLiveAdd])
      (le_refl _) (by norm_num [exLiveCfg, exLiveAdd, eps]) rfl
      (by norm_num [roundQty, exLiveCfg, exLiveAdd]),
   c8_next_trigger_from_fill.2.2.2 exLiveCfg exLiveShortAdd (1/10) (1/10) (1/10)
      rfl (by norm_num [exLiveShortAdd]) rfl (by norm_num [exLiveCfg, exLiveShortAdd])
      (le_refl _) (by norm_num [exLiveCfg, exLiveShortAdd, eps]) rfl
      (by norm_num [roundQty, exLiveCfg, exLiveShortAdd])⟩

/-- Claim C9: a trigger computed by an executed add uses the widened
step exactly when the level current at that moment (the
just-incremented level) is at least `widen_step_level`, and for lower
levels the unwidened base step; an open from flat (with a positive
`widen_step_level`) always uses the unwidened step. -/
theorem c9_widen_step_activation :
    (∀ (C : LiveCfg) (s : LiveState) (price np avg : ℚ),
       s.side = Side.long → s.pos_qty ≠ 0 → s.next_price = some np →
       s.level < C.longCfg.max_dca → price ≤ np →
       s.pos_qty * price + s.size_usdt * C.longCfg.volume_scale
         ≤ C.longCfg.max_position_usdt + eps →
       s.avg_entry = some avg →
       0 < roundQty C (s.size_usdt * C.longCfg.volume_scale / price) →
       (C.widen_step_level ≤ s.level + 1 →
          (maybeOpenOrDca C s price none).next_price
            = some (price * (1 - (C.longCfg.step_pct + C.widen_step_add))))
       ∧ (s.level + 1 < C.widen_step_level →
          (maybeOpenOrDca C s price none).next_price
            = some (price * (1 - C.longCfg.step_pct))))
    ∧ (∀ (C : LiveCfg) (s : LiveState) (price : ℚ),
       s.side = Side.long → s.pos_qty = 0 → s.level = -1 →
       0 ≤ C.longCfg.max_position_usdt → 0 < C.widen_step_level →
       (maybeOpenOrDca C s price none).next_price
         = some (price * (1 - C.longCfg.step_pct))) := by
  constructor
  · intro C s price np avg hside hq hnp hlv hpr hcap ha hfill
    have hmain := live_add_long C s price np avg hside hq hnp hlv hpr hcap ha hfill
    constructor
    · intro hw
      rw [hmain]
      dsimp only
      rw [hside]
      unfold dynamicStep
      dsimp only
      rw [if_pos hw]
    · intro hw
      rw [hmain]
      dsimp only
      rw [hside]
      unfold dynamicStep
      dsimp only
      rw [if_neg (not_le.mpr hw), add_zero]
  · intro C s price hside hq hlvl hmax hw
    rw [live_open_long C s price hside hq hmax]
    dsimp only
    rw [hside, hlvl]
    unfold dynamicStep
    dsimp only
    rw [if_neg (by omega), add_zero]

/-- Witness for `c9_widen_step_activation`: at level 0→1 the base step
is used, at level 3→4 (with `widen_step_level = 3`) the widened step,
and an open from flat uses the base step. -/
theorem c9_widen_step_activation_witness :
    (maybeOpenOrDca exLiveCfg exLiveAdd (1/10) none).next_price
        = some ((1/10) * (1 - exLiveCfg.longCfg.step_pct))
    ∧ (maybeOpenOrDca exLiveCfg exLiveAddDeep (1/10) none).next_price
        = some ((1/10) * (1 - (exLiveCfg.longCfg.step_pct + exLiveCfg.widen_step_add)))
    ∧ (maybeOpenOrDca exLiveCfg exLiveFlat 1 none).next_price
        = some (1 * (1 - exLiveCfg.longCfg.step_pct)) :=
  ⟨(c9_widen_step_activation.1 exLiveCfg exLiveAdd (1/10) (1/10) (1/10)
      rfl (by norm_num [exLiveAdd]) rfl (by norm_num [exLiveCfg, exLiveAdd])
      (le_refl _) (by norm_num [exLiveCfg, exLiveAdd, eps]) rfl
      (by norm_num [roundQty, exLiveCfg, exLiveAdd])).2
      (by norm_num [exLiveCfg, exLiveAdd]),
   (c9_widen_step_activation.1 exLiveCfg exLiveAddDeep (1/10) (1/10) (1/10)
      rfl (by norm_num [exLiveAddDeep, exLiveAdd]) rfl
      (by norm_num [exLiveCfg, exLiveAddDeep, exLiveAdd])
      (le_refl _) (by norm_num [exLiveCfg, exLiveAddDeep, exLiveAdd, eps]) rfl
      (by norm_num [roundQty, exLiveCfg, exLiveAddDeep, exLiveAdd])).1
      (by norm_num [exLiveCfg, exLiveAddDeep, exLiveAdd]),
   c9_widen_step_activation.2 exLiveCfg exLiveFlat 1
      rfl rfl rfl (by norm_num [exLiveCfg]) (by norm_num [exLiveCfg])⟩

/-- Claim C10: for a positive requested quantity and step, `round_qty`
returns 0 exactly when the request floors below one step, and
otherwise a value at least `min_qty`; when the floored value is
positive but below `min_qty` it returns `min_qty`, which can strictly
exceed the requested quantity (witnessed at `q = 1.5`, step 1,
`min_qty` 10) — so the ordered quantity can exceed the one the
notional-cap check was based on. -/
theorem c10_round_qty_floor_or_min :
    (∀ (C : LiveCfg) (q : ℚ), 0 < q → 0 < C.qty_step →
       (roundQty C q = 0 ∨ C.min_qty ≤ roundQty C q)
       ∧ (roundQty C q = 0 ↔ q < C.qty_step)
       ∧ (0 < ((Int.floor (q / C.qty_step) : ℤ) : ℚ) * C.qty_step →
          ((Int.floor (q / C.qty_step) : ℤ) : ℚ) * C.qty_step < C.min_qty →
          roundQty C q = C.min_qty))
    ∧ (∀ (C : V2Cfg) (q : ℚ), 0 < q → 0 < C.qty_step →
       (v2RoundQty C q = 0 ∨ C.min_qty ≤ v2RoundQty C q)
       ∧ (v2RoundQty C q = 0 ↔ q < C.qty_step))
    ∧ roundQty exLiveCfgBump (3/2) = 10
    ∧ (3/2 : ℚ) < roundQty exLiveCfgBump (3/2) := by
  refine ⟨?_, ?_, ?_, ?_⟩
  · intro C q hq hs
    exact ⟨(roundQty_zero_or_min C q hq hs).1, (roundQty_zero_or_min C q hq hs).2,
           fun h1 h2 => roundQty_bump C q h1 h2⟩
  · intro C q hq hs
    rw [v2RoundQty_as_live]
    exact roundQty_zero_or_min (v2AsLiveCfg C) q hq hs
  · norm_num [roundQty, exLiveCfgBump, exLiveCfg]
  · norm_num [roundQty, exLiveCfgBump, exLiveCfg]

/-- Witness for `c10_round_qty_floor_or_min` at the aggressive preset
and the v2 defaults with requested quantity 24. -/
theorem c10_round_qty_floor_or_min_witness :
    ((roundQty exLiveCfg 24 = 0 ∨ exLiveCfg.min_qty ≤ roundQty exLiveCfg 24)
     ∧ (roundQty exLiveCfg 24 = 0 ↔ (24 : ℚ) < exLiveCfg.qty_step)
     ∧ (0 < ((Int.floor ((24 : ℚ) / exLiveCfg.qty_step) : ℤ) : ℚ) * exLiveCfg.qty_step →
        ((Int.floor ((24 : ℚ) / exLiveCfg.qty_step) : ℤ) : ℚ) * exLiveCfg.qty_step
            < exLiveCfg.min_qty →
        roundQty exLiveCfg 24 = exLiveCfg.min_qty))
    ∧ ((v2RoundQty exV2Cfg 24 = 0 ∨ exV2Cfg.min_qty ≤ v2RoundQty exV2Cfg 24)
       ∧ (v2RoundQty exV2Cfg 24 = 0 ↔ (24 : ℚ) < exV2Cfg.qty_step)) :=
  ⟨c10_round_qty_floor_or_min.1 exLiveCfg 24 (by norm_num) (by norm_num [exLiveCfg]),
   c10_round_qty_floor_or_min.2.1 exV2Cfg 24 (by norm_num) (by norm_num [exV2Cfg])⟩
